import Mathlib

/-!
Verification of the aedis connection core against its specification.

The definitions below are shallow embeddings of the C++ sources:
  * `src/include/aedis/resp3/impl/type.ipp` (the RESP3 sigil codec),
  * `src/include/aedis/connection.hpp` (queue bookkeeping: `cancel`,
    `cancel_push_requests`, `add_request_info`, `coalesce_requests`).
Parts of the repository that are not available as sources (the
`detail::exec_op` / `detail::reader_op` composed operations of
`aedis/detail/connection_ops.hpp` and `resp3::request`) are modelled
from the specification text and are marked as such.
-/

namespace Aedis

/-- The RESP3 wire types, from the enum `aedis::resp3::type`
(as used by `src/include/aedis/resp3/impl/type.ipp`).  The C++
enumerator `attribute` is spelled `attrib` here because `attribute`
is a Lean keyword. -/
inductive type where
  | array
  | push
  | set
  | map
  | attrib
  | simple_string
  | simple_error
  | number
  | doublean
  | boolean
  | big_number
  | null
  | blob_error
  | verbatim_string
  | blob_string
  | streamed_string_part
  | invalid
deriving DecidableEq, Repr

/-- Embeds `char to_code(type t)` of `type.ipp` (lines 63-87).  The
`default` branch of the switch asserts and returns a space; it is only
reachable for `invalid`. -/
def to_code : type → Char
  | type.blob_error           => '!'
  | type.verbatim_string      => '='
  | type.blob_string          => '$'
  | type.streamed_string_part => ';'
  | type.simple_error         => '-'
  | type.number               => ':'
  | type.doublean             => ','
  | type.boolean              => '#'
  | type.big_number           => '('
  | type.simple_string        => '+'
  | type.null                 => '_'
  | type.push                 => '>'
  | type.set                  => '~'
  | type.array                => '*'
  | type.attrib               => '|'
  | type.map                  => '%'
  | type.invalid              => ' '

/-- Embeds `type to_type(char c)` of `type.ipp` (lines 89-110): a
switch over the sixteen sigil bytes, with `default: return
type::invalid`. -/
def to_type (c : Char) : type :=
  if c = '!' then type.blob_error
  else if c = '=' then type.verbatim_string
  else if c = '$' then type.blob_string
  else if c = ';' then type.streamed_string_part
  else if c = '-' then type.simple_error
  else if c = ':' then type.number
  else if c = ',' then type.doublean
  else if c = '#' then type.boolean
  else if c = '(' then type.big_number
  else if c = '+' then type.simple_string
  else if c = '_' then type.null
  else if c = '>' then type.push
  else if c = '~' then type.set
  else if c = '*' then type.array
  else if c = '|' then type.attrib
  else if c = '%' then type.map
  else type.invalid

/-- The sixteen sigil bytes of the §6 table, in table order. -/
def codes : List Char :=
  ['!', '=', '$', ';', '-', ':', ',', '#', '(', '+', '_', '>', '~', '*', '|', '%']

theorem to_type_not_mem (c : Char) (hc : c ∉ codes) : to_type c = type.invalid := by
  simp [codes] at hc
  obtain ⟨n1, n2, n3, n4, n5, n6, n7, n8, n9, n10, n11, n12, n13, n14, n15, n16⟩ := hc
  simp [to_type, n1, n2, n3, n4, n5, n6, n7, n8, n9, n10, n11, n12, n13, n14, n15, n16]

/-- C9: the decoder and encoder sigil maps are mutually inverse over the
sixteen wire types of the §6 table: `to_type (to_code t) = t` for every
type other than the `invalid` sentinel, `to_code (to_type c) = c` for
every byte of the table, and any byte outside the table maps to the
`invalid` sentinel (the `UnknownType` case of the decoder). -/
theorem type_code_roundtrip :
    (∀ t : type, t ≠ type.invalid → to_type (to_code t) = t) ∧
    (∀ c ∈ codes, to_code (to_type c) = c) ∧
    (∀ c : Char, c ∉ codes → to_type c = type.invalid) := by
  refine ⟨?_, ?_, ?_⟩
  · intro t _
    cases t <;> rfl
  · decide
  · exact to_type_not_mem

theorem type_code_roundtrip_witness :
    to_type (to_code type.push) = type.push ∧
    to_code (to_type '>') = '>' ∧
    to_type 'x' = type.invalid :=
  ⟨type_code_roundtrip.1 type.push (by decide),
   type_code_roundtrip.2.1 '>' (by decide),
   type_code_roundtrip.2.2 'x' (by decide)⟩

/-- One in-flight entry: the fields of `connection::req_info`
(connection.hpp lines 415-422) together with the per-request
configuration consulted by the queue code (`req->size()`,
`req->payload()`, `req->get_config().coalesce`,
`close_on_run_completion`).  `wakes` counts `timer.cancel_one()` calls
and `timer_cancels` counts `timer.cancel()` calls delivered to the
entry's wake primitive. -/
structure req_info where
  size : Nat
  payload : List Char
  coalesce : Bool
  close_on_run_completion : Bool
  written : Bool
  stop : Bool
  wakes : Nat
  timer_cancels : Nat
deriving DecidableEq

/-- The connection state touched by the queue bookkeeping of
`connection` (connection.hpp lines 562-584): socket (`none` models a
null pointer, `some b` a socket whose `is_open()` is `b`), the
in-flight command count `cmds_`, the write buffer, the queue `reqs_`,
and flags recording cancellations of the connection-owned timers.
`done` is a ghost trace of the entries removed from the queue with the
flags they were removed with. -/
structure connection_state where
  socket : Option Bool
  cmds : Nat
  write_buffer : List Char
  reqs : List req_info
  done : List req_info
  ping_timer_cancelled : Bool
  check_idle_timer_cancelled : Bool
  writer_timer_cancelled : Bool
  read_timer_cancelled : Bool
deriving DecidableEq

/-- The effect of `cancel(operation::exec)` on one queued entry
(connection.hpp lines 176-179): `e->stop = true; e->timer.cancel_one()`. -/
def cancel_exec_entry (e : req_info) : req_info :=
  { e with stop := true, wakes := e.wakes + 1 }

/-- Embeds the `operation::exec` branch of `connection::cancel`
(connection.hpp lines 174-184): stop and wake every queued entry,
clear the queue, return the old queue size. -/
def cancel_exec (s : connection_state) : Nat × connection_state :=
  (s.reqs.length,
   { s with reqs := [], done := s.done ++ s.reqs.map cancel_exec_entry })

/-- The effect of the `operation::run` branch on an entry moved past the
partition point (connection.hpp lines 200-203): `ptr->stop = true;
ptr->timer.cancel()`. -/
def cancel_run_entry (e : req_info) : req_info :=
  { e with stop := true, timer_cancels := e.timer_cancels + 1 }

/-- Embeds the `operation::run` branch of `connection::cancel`
(connection.hpp lines 185-207): close the socket, cancel the four
connection timers, stable-partition the queue moving entries with
`close_on_run_completion` to the back, stop them, cancel their timers
and erase them. -/
def cancel_run (s : connection_state) : Nat × connection_state :=
  (1,
   { s with
     socket := s.socket.map (fun _ => false),
     read_timer_cancelled := true,
     check_idle_timer_cancelled := true,
     writer_timer_cancelled := true,
     ping_timer_cancelled := true,
     reqs := s.reqs.filter (fun e => !e.close_on_run_completion),
     done := s.done ++
       (s.reqs.filter (fun e => e.close_on_run_completion)).map cancel_run_entry })

/-- The effect of `cancel_push_requests` on a removed entry
(connection.hpp lines 456-458): `ptr->timer.cancel()`. -/
def cancel_timer_entry (e : req_info) : req_info :=
  { e with timer_cancels := e.timer_cancels + 1 }

/-- Embeds `connection::cancel_push_requests` (connection.hpp lines
450-461): stable-partition the queue moving entries with
`written && req->size() == 0` to the back, cancel their timers and
erase them. -/
def cancel_push_requests (s : connection_state) : connection_state :=
  { s with
    reqs := s.reqs.filter (fun e => !(e.written && e.size == 0)),
    done := s.done ++
      (s.reqs.filter (fun e => e.written && e.size == 0)).map cancel_timer_entry }

/-- Embeds `connection::add_request_info` (connection.hpp lines
463-468): push the entry at the back; if the socket exists, is open,
`cmds_ == 0` and the write buffer is empty, cancel the writer timer.
The returned boolean records whether `writer_timer_.cancel()` was
called. -/
def add_request_info (s : connection_state) (info : req_info) : connection_state × Bool :=
  let wake := (match s.socket with | some b => b | none => false)
                && s.cmds == 0 && s.write_buffer.isEmpty
  ({ s with reqs := s.reqs ++ [info],
            writer_timer_cancelled := s.writer_timer_cancelled || wake },
   wake)

/-- The per-entry effect of the coalescing loop (connection.hpp line
558): `reqs_.at(i)->written = true`. -/
def mark_written (e : req_info) : req_info :=
  { e with written := true }

/-- The loop body of `connection::coalesce_requests` (connection.hpp
lines 555-559) over the first `k` queue entries: concatenate their
payloads, sum their command counts and mark them written. -/
def coalesce_take : List req_info → Nat → List Char × Nat × List req_info
  | reqs, 0 => ([], 0, reqs)
  | [], _ + 1 => ([], 0, [])
  | e :: rest, k + 1 =>
    let r := coalesce_take rest k
    (e.payload ++ r.1, e.size + r.2.1, mark_written e :: r.2.2)

/-- Embeds `connection::coalesce_requests` (connection.hpp lines
547-560): `size = cfg_.coalesce_requests ? reqs_.size() : 1`, then for
`i < size` append `reqs_.at(i)->req->payload()` to the write buffer,
add `reqs_.at(i)->req->size()` to `cmds_` and set
`reqs_.at(i)->written = true`. -/
def coalesce_requests (cfg_coalesce_requests : Bool) (s : connection_state) : connection_state :=
  let k := if cfg_coalesce_requests then s.reqs.length else 1
  let r := coalesce_take s.reqs k
  { s with
    write_buffer := s.write_buffer ++ r.1,
    cmds := s.cmds + r.2.1,
    reqs := r.2.2 }

/-- The coalescing selection as claim C1's sentence describes it:
starting at the head, entries are included while they are unwritten and
carry the per-request `coalesce` flag, at least one always being
included.  Stated from the spec's words, for comparison with the
source's `coalesce_requests`. -/
def claim_coalesce_count (reqs : List req_info) : Nat :=
  max 1 (reqs.takeWhile (fun e => !e.written && e.coalesce)).length

theorem coalesce_take_eq (reqs : List req_info) (k : Nat) :
    coalesce_take reqs k =
      (((reqs.take k).map req_info.payload).flatten,
       ((reqs.take k).map req_info.size).sum,
       (reqs.take k).map mark_written ++ reqs.drop k) := by
  induction reqs generalizing k with
  | nil => cases k <;> simp [coalesce_take]
  | cons e rest ih =>
    cases k with
    | zero => simp [coalesce_take]
    | succ n => simp [coalesce_take, ih]

/-- C3: `cancel(operation::exec)` marks every queued entry
`stop = true`, wakes each exactly once, empties the queue and returns
the number of entries that were queued; a second consecutive call with
no intervening submission wakes nobody further and returns 0. -/
theorem cancel_exec_spec (s : connection_state) :
    (cancel_exec s).1 = s.reqs.length ∧
    (cancel_exec s).2.reqs = [] ∧
    (cancel_exec s).2.done = s.done ++ s.reqs.map cancel_exec_entry ∧
    (∀ e ∈ s.reqs, (cancel_exec_entry e).stop = true ∧
      (cancel_exec_entry e).wakes = e.wakes + 1) ∧
    (cancel_exec (cancel_exec s).2).1 = 0 ∧
    (cancel_exec (cancel_exec s).2).2.done = (cancel_exec s).2.done := by
  refine ⟨rfl, rfl, rfl, ?_, rfl, ?_⟩
  · intro e _
    exact ⟨rfl, rfl⟩
  · simp [cancel_exec]

def c3_entry : req_info :=
  ⟨1, ['p'], true, false, false, false, 0, 0⟩

def c3_state : connection_state :=
  ⟨some true, 0, [], [c3_entry], [], false, false, false, false⟩

theorem cancel_exec_spec_witness :
    ((cancel_exec_entry c3_entry).stop = true ∧
      (cancel_exec_entry c3_entry).wakes = c3_entry.wakes + 1) ∧
    (cancel_exec c3_state).1 = 1 ∧
    (cancel_exec (cancel_exec c3_state).2).1 = 0 :=
  ⟨(cancel_exec_spec c3_state).2.2.2.1 c3_entry (by decide),
   (cancel_exec_spec c3_state).1,
   (cancel_exec_spec c3_state).2.2.2.2.1⟩

/-- C4: `cancel(operation::run)` closes the socket, removes from the
queue exactly the entries whose request has `close_on_run_completion`
set (stopping each removed entry and cancelling its timer) and keeps
every other entry — written or not — in the queue in the original
relative order. -/
theorem cancel_run_spec (s : connection_state) :
    (cancel_run s).2.reqs = s.reqs.filter (fun e => !e.close_on_run_completion) ∧
    (cancel_run s).2.reqs.Sublist s.reqs ∧
    (∀ e, e ∈ (cancel_run s).2.reqs ↔
      e ∈ s.reqs ∧ e.close_on_run_completion = false) ∧
    (∀ e ∈ s.reqs, e.written = true → e.close_on_run_completion = false →
      e ∈ (cancel_run s).2.reqs) ∧
    (cancel_run s).2.done = s.done ++
      (s.reqs.filter (fun e => e.close_on_run_completion)).map cancel_run_entry ∧
    (∀ e ∈ s.reqs, e.close_on_run_completion = true →
      (cancel_run_entry e).stop = true ∧
      (cancel_run_entry e).timer_cancels = e.timer_cancels + 1) ∧
    (∀ b, s.socket = some b → (cancel_run s).2.socket = some false) := by
  refine ⟨rfl, ?_, ?_, ?_, rfl, ?_, ?_⟩
  · exact List.filter_sublist s.reqs
  · intro e
    simp [cancel_run, List.mem_filter]
  · intro e he _ hc
    simp [cancel_run, List.mem_filter, he, hc]
  · intro e _ _
    exact ⟨rfl, rfl⟩
  · intro b hb
    simp [cancel_run, hb]

def c4_kept : req_info :=
  ⟨1, ['a'], true, false, true, false, 0, 0⟩

def c4_dropped : req_info :=
  ⟨0, ['b'], true, true, false, false, 0, 0⟩

def c4_state : connection_state :=
  ⟨some true, 0, [], [c4_kept, c4_dropped], [], false, false, false, false⟩

theorem cancel_run_spec_witness :
    c4_kept ∈ (cancel_run c4_state).2.reqs ∧
    ((cancel_run_entry c4_dropped).stop = true ∧
      (cancel_run_entry c4_dropped).timer_cancels = c4_dropped.timer_cancels + 1) ∧
    (cancel_run c4_state).2.socket = some false :=
  ⟨(cancel_run_spec c4_state).2.2.2.1 c4_kept (by decide) (by decide) (by decide),
   (cancel_run_spec c4_state).2.2.2.2.2.1 c4_dropped (by decide) (by decide),
   (cancel_run_spec c4_state).2.2.2.2.2.2 true (by decide)⟩

/-- C8: `cancel_push_requests` removes from the queue exactly the
entries that are written and whose request has command count zero,
cancelling each removed entry's timer; every other entry stays in the
queue unchanged and in the original relative order, and the rest of the
connection state is untouched. -/
theorem cancel_push_requests_spec (s : connection_state) :
    (cancel_push_requests s).reqs
      = s.reqs.filter (fun e => !(e.written && e.size == 0)) ∧
    (cancel_push_requests s).reqs.Sublist s.reqs ∧
    (∀ e, e ∈ (cancel_push_requests s).reqs ↔
      e ∈ s.reqs ∧ ¬(e.written = true ∧ e.size = 0)) ∧
    (cancel_push_requests s).done = s.done ++
      (s.reqs.filter (fun e => e.written && e.size == 0)).map cancel_timer_entry ∧
    (∀ e ∈ s.reqs, e.written = true → e.size = 0 →
      (cancel_timer_entry e).timer_cancels = e.timer_cancels + 1 ∧
      e ∉ (cancel_push_requests s).reqs) ∧
    (cancel_push_requests s).cmds = s.cmds ∧
    (cancel_push_requests s).write_buffer = s.write_buffer := by
  refine ⟨rfl, ?_, ?_, rfl, ?_, rfl, rfl⟩
  · exact List.filter_sublist s.reqs
  · intro e
    simp only [cancel_push_requests, List.mem_filter]
    cases hw : e.written <;> simp [hw]
  · intro e _ hw hz
    refine ⟨rfl, ?_⟩
    simp [cancel_push_requests, List.mem_filter, hw, hz]

def c8_lingering : req_info :=
  ⟨0, [], true, false, true, false, 0, 0⟩

def c8_pending : req_info :=
  ⟨2, ['q'], true, false, false, false, 0, 0⟩

def c8_state : connection_state :=
  ⟨some true, 0, [], [c8_lingering, c8_pending], [], false, false, false, false⟩

theorem cancel_push_requests_spec_witness :
    ((cancel_timer_entry c8_lingering).timer_cancels
        = c8_lingering.timer_cancels + 1 ∧
      c8_lingering ∉ (cancel_push_requests c8_state).reqs) ∧
    (cancel_push_requests c8_state).cmds = c8_state.cmds :=
  ⟨(cancel_push_requests_spec c8_state).2.2.2.2.1 c8_lingering
      (by decide) (by decide) (by decide),
   (cancel_push_requests_spec c8_state).2.2.2.2.2.1⟩

/-- C10: `add_request_info` appends the new entry at the tail of the
queue, and it wakes the writer (cancels the writer timer) iff the
socket exists and is open, the in-flight command count is zero and the
write buffer is empty; in every other state the submission does not
wake the writer. -/
theorem add_request_info_spec (s : connection_state) (info : req_info) :
    (add_request_info s info).1.reqs = s.reqs ++ [info] ∧
    ((add_request_info s info).2 = true ↔
      s.socket = some true ∧ s.cmds = 0 ∧ s.write_buffer = []) := by
  constructor
  · rfl
  · cases hs : s.socket with
    | none => simp [add_request_info, hs]
    | some b =>
      cases b <;> cases hwb : s.write_buffer <;>
        simp [add_request_info, hs, hwb, List.isEmpty]

/-- C1 counterexample: with the connection configuration flag
`coalesce_requests = true` and a queue of two unwritten entries whose
per-request `coalesce` flags are false, the walk described by the claim
includes only the head entry, yet the source's `coalesce_requests`
marks both entries written and adds both command counts — it consults
only the connection configuration flag, never the per-request flag or
the written state. -/
theorem coalesce_claim_counterexample :
    claim_coalesce_count
      [(⟨1, ['A'], false, false, false, false, 0, 0⟩ : req_info),
       ⟨2, ['B'], false, false, false, false, 0, 0⟩] = 1 ∧
    ((coalesce_requests true
        ⟨some true, 0, [],
         [⟨1, ['A'], false, false, false, false, 0, 0⟩,
          ⟨2, ['B'], false, false, false, false, 0, 0⟩],
         [], false, false, false, false⟩).reqs.map req_info.written)
      = [true, true] ∧
    (coalesce_requests true
        ⟨some true, 0, [],
         [⟨1, ['A'], false, false, false, false, 0, 0⟩,
          ⟨2, ['B'], false, false, false, false, 0, 0⟩],
         [], false, false, false, false⟩).cmds = 3 ∧
    (1 : Nat) ≠ 2 := by
  decide

/-- C1 (amended): the writer's `coalesce_requests` includes, starting at
the head of the queue, all queued entries when the connection
configuration flag `coalesce_requests` is true and exactly the head
entry otherwise — regardless of the entries' written state or
per-request `coalesce` flags; every included entry is marked
`written = true`, `cmds_` is incremented by the sum of the included
requests' command counts, and the included payloads are concatenated
into the write buffer in queue order. -/
theorem coalesce_requests_spec (cfg : Bool) (s : connection_state)
    (hb : s.write_buffer = []) (hne : s.reqs ≠ []) :
    ∃ k, k = (if cfg then s.reqs.length else 1) ∧ 1 ≤ k ∧
      (coalesce_requests cfg s).write_buffer
        = ((s.reqs.take k).map req_info.payload).flatten ∧
      (coalesce_requests cfg s).cmds
        = s.cmds + ((s.reqs.take k).map req_info.size).sum ∧
      (coalesce_requests cfg s).reqs
        = (s.reqs.take k).map mark_written ++ s.reqs.drop k ∧
      ∀ e : req_info, (mark_written e).written = true ∧
        (mark_written e).size = e.size ∧
        (mark_written e).payload = e.payload := by
  have hlen : 0 < s.reqs.length := List.length_pos.mpr hne
  refine ⟨if cfg then s.reqs.length else 1, rfl, ?_, ?_, ?_, ?_, ?_⟩
  · cases cfg
    · simp
    · simpa using hlen
  · simp [coalesce_requests, coalesce_take_eq, hb]
  · simp [coalesce_requests, coalesce_take_eq]
  · simp [coalesce_requests, coalesce_take_eq]
  · intro e
    exact ⟨rfl, rfl, rfl⟩

def c1_state : connection_state :=
  ⟨some true, 0, [],
   [⟨1, ['A'], false, false, false, false, 0, 0⟩,
    ⟨2, ['B'], false, false, false, false, 0, 0⟩],
   [], false, false, false, false⟩

theorem coalesce_requests_spec_witness :
    ∃ k, k = (if true then c1_state.reqs.length else 1) ∧ 1 ≤ k ∧
      (coalesce_requests true c1_state).write_buffer
        = ((c1_state.reqs.take k).map req_info.payload).flatten ∧
      (coalesce_requests true c1_state).cmds
        = c1_state.cmds + ((c1_state.reqs.take k).map req_info.size).sum ∧
      (coalesce_requests true c1_state).reqs
        = (c1_state.reqs.take k).map mark_written ++ c1_state.reqs.drop k ∧
      ∀ e : req_info, (mark_written e).written = true ∧
        (mark_written e).size = e.size ∧
        (mark_written e).payload = e.payload :=
  coalesce_requests_spec true c1_state rfl (by decide)

/-- A pending submission as seen by the submission path: the request's
name tag, its `hello_with_priority` flag, whether its first command is
HELLO, and whether its entry has been written. -/
structure pending_req where
  name : String
  hello_with_priority : Bool
  first_is_hello : Bool
  written : Bool
deriving DecidableEq

/-- Modelled from the spec: the enqueue step of `detail::exec_op`
(`aedis/detail/connection_ops.hpp` is not among the sources).  Spec
§4.D `submit`: append to the tail; "If `hello_with_priority` and the
request's first command is HELLO, insert at the boundary between
written and not-yet-written entries". -/
def submit_req (q : List pending_req) (e : pending_req) : List pending_req :=
  if e.hello_with_priority && e.first_is_hello then
    q.takeWhile (fun x => x.written) ++ e :: q.dropWhile (fun x => x.written)
  else
    q ++ [e]

/-- Modelled from the spec: submissions complete in queue order
("Submission order == response-dispatch order for a given queue",
§5). -/
def completion_order (q : List pending_req) : List String :=
  q.map pending_req.name

theorem takeWhile_written_append (w u : List pending_req)
    (hw : ∀ x ∈ w, x.written = true) (hu : ∀ x ∈ u, x.written = false) :
    (w ++ u).takeWhile (fun x => x.written) = w := by
  induction w with
  | nil =>
    cases u with
    | nil => rfl
    | cons a t => simp [List.takeWhile_cons, hu a (by simp)]
  | cons a t ih =>
    simp only [List.cons_append, List.takeWhile_cons, hw a (by simp), if_true]
    simpa using ih (fun x hx => hw x (by simp [hx]))

theorem dropWhile_written_append (w u : List pending_req)
    (hw : ∀ x ∈ w, x.written = true) (hu : ∀ x ∈ u, x.written = false) :
    (w ++ u).dropWhile (fun x => x.written) = u := by
  induction w with
  | nil =>
    cases u with
    | nil => rfl
    | cons a t => simp [List.dropWhile_cons, hu a (by simp)]
  | cons a t ih =>
    simp only [List.cons_append, List.dropWhile_cons, hw a (by simp), if_true]
    exact ih (fun x hx => hw x (by simp [hx]))

def c5_req1 : pending_req := ⟨"req1", false, false, false⟩

def c5_req2 : pending_req := ⟨"req2", false, true, false⟩

def c5_req3 : pending_req := ⟨"req3", true, true, false⟩

/-- C5: submitting req1 = [PING "req1"], then req2 = [HELLO 3; PING
"req2"; QUIT] with `hello_with_priority = false`, then req3 = [HELLO 3;
PING "req3"] with `hello_with_priority = true` on a not-yet-connected
connection (nothing written) yields the completion order req3, req1,
req2; in general a priority HELLO submission lands exactly at the
boundary: after every written entry and before every not-yet-written
entry. -/
theorem hello_priority_order :
    completion_order
        (submit_req (submit_req (submit_req [] c5_req1) c5_req2) c5_req3)
      = ["req3", "req1", "req2"] ∧
    (∀ (w u : List pending_req) (e : pending_req),
      (∀ x ∈ w, x.written = true) → (∀ x ∈ u, x.written = false) →
      e.hello_with_priority = true → e.first_is_hello = true →
      submit_req (w ++ u) e = w ++ e :: u) := by
  constructor
  · rfl
  · intro w u e hw hu hp hh
    simp [submit_req, hp, hh,
      takeWhile_written_append w u hw hu,
      dropWhile_written_append w u hw hu]

def c5_wr : pending_req := ⟨"w", false, false, true⟩

def c5_un : pending_req := ⟨"u", false, false, false⟩

theorem hello_priority_order_witness :
    submit_req ([c5_wr] ++ [c5_un]) c5_req3 = [c5_wr] ++ c5_req3 :: [c5_un] :=
  hello_priority_order.2 [c5_wr] [c5_un] c5_req3
    (by decide) (by decide) (by decide) (by decide)

/-- An entry of the in-flight queue as the reader sees it: the
submission it belongs to and how many top-level frames are still
expected for it. -/
structure read_entry where
  id : Nat
  remaining : Nat
deriving DecidableEq

/-- A completed top-level frame: its root RESP3 type and a tag standing
for its payload. -/
structure frame where
  root : type
  tag : Nat
deriving DecidableEq

/-- Modelled from the spec: the handling of one completed top-level
frame by the reader loop of `detail::reader_op`
(`aedis/detail/connection_ops.hpp` is not among the sources).  Spec
§4.A/§4.E: a frame whose root type is `push` is delivered to the push
rendezvous; any other frame is fed to the head entry's adapter and
consumes one unit of `remaining_cmds`, the entry being popped (and
woken) when its count reaches zero.  Returns the new queue, the
adapter deliveries `(entry id, frame)` and the push deliveries. -/
def reader_step (q : List read_entry) (f : frame) :
    List read_entry × List (Nat × frame) × List frame :=
  if f.root = type.push then
    (q, [], [f])
  else
    match q with
    | [] => ([], [], [])
    | e :: rest =>
      if e.remaining ≤ 1 then (rest, [(e.id, f)], [])
      else (⟨e.id, e.remaining - 1⟩ :: rest, [(e.id, f)], [])

/-- Modelled from the spec: the reader loop over a sequence of completed
top-level frames. -/
def reader_run (q : List read_entry) : List frame → List read_entry × List (Nat × frame) × List frame
  | [] => (q, [], [])
  | f :: fs =>
    ((reader_run (reader_step q f).1 fs).1,
     (reader_step q f).2.1 ++ (reader_run (reader_step q f).1 fs).2.1,
     (reader_step q f).2.2 ++ (reader_run (reader_step q f).1 fs).2.2)

theorem reader_step_adapter (q : List read_entry) (f : frame) (pr : Nat × frame)
    (h : pr ∈ (reader_step q f).2.1) : pr.2 = f ∧ f.root ≠ type.push := by
  unfold reader_step at h
  by_cases hroot : f.root = type.push
  · simp [hroot] at h
  · simp only [hroot, if_false] at h
    cases q with
    | nil => simp at h
    | cons e rest =>
      by_cases hrem : e.remaining ≤ 1 <;> simp [hrem] at h <;>
        exact ⟨by simp [h], hroot⟩

theorem reader_run_adapter_not_push (q : List read_entry) (fs : List frame) :
    ∀ pr ∈ (reader_run q fs).2.1, pr.2.root ≠ type.push := by
  induction fs generalizing q with
  | nil =>
    intro pr hpr
    simp [reader_run] at hpr
  | cons f fs ih =>
    intro pr hpr
    simp only [reader_run, List.mem_append] at hpr
    cases hpr with
    | inl h =>
      obtain ⟨hpf, hroot⟩ := reader_step_adapter q f pr h
      rw [hpf]
      exact hroot
    | inr h => exact ih _ pr h

theorem reader_step_push (q : List read_entry) (f : frame) :
    (reader_step q f).2.2 = if f.root = type.push then [f] else [] := by
  by_cases h : f.root = type.push
  · simp [reader_step, h]
  · cases q with
    | nil => simp [reader_step, h]
    | cons e rest => by_cases h2 : e.remaining ≤ 1 <;> simp [reader_step, h, h2]

theorem reader_run_push (q : List read_entry) (fs : List frame) :
    (reader_run q fs).2.2 = fs.filter (fun f => f.root == type.push) := by
  induction fs generalizing q with
  | nil => simp [reader_run]
  | cons f fs ih =>
    by_cases h : f.root = type.push <;>
      simp [reader_run, reader_step_push, ih, List.filter_cons, h]

/-- C6: the adapter bound to a non-push submission never observes a
frame whose root type is `push`: over any run of the reader, every
adapter delivery carries a non-push root, the push rendezvous receives
exactly the frames with root type `push` (in stream order), and a
non-push frame consumes exactly one unit of the head entry's
`remaining_cmds`. -/
theorem push_isolation :
    (∀ (q : List read_entry) (fs : List frame),
      ∀ pr ∈ (reader_run q fs).2.1, pr.2.root ≠ type.push) ∧
    (∀ (q : List read_entry) (fs : List frame),
      (reader_run q fs).2.2 = fs.filter (fun f => f.root == type.push)) ∧
    (∀ (e : read_entry) (rest : List read_entry) (f : frame),
      f.root ≠ type.push → 1 ≤ e.remaining →
      (reader_step (e :: rest) f).2.1 = [(e.id, f)] ∧
      ((reader_step (e :: rest) f).1.map read_entry.remaining).sum + 1
        = ((e :: rest).map read_entry.remaining).sum) := by
  refine ⟨reader_run_adapter_not_push, reader_run_push, ?_⟩
  intro e rest f h h1
  by_cases h2 : e.remaining ≤ 1
  · have he : e.remaining = 1 := Nat.le_antisymm h2 h1
    refine ⟨by simp [reader_step, h, h2], ?_⟩
    simp [reader_step, h, h2, he]
    omega
  · refine ⟨by simp [reader_step, h, h2], ?_⟩
    simp [reader_step, h, h2]
    omega

theorem push_isolation_witness :
    ((7 : Nat), (⟨type.number, 1⟩ : frame)).2.root ≠ type.push ∧
    (reader_step [(⟨7, 2⟩ : read_entry)] ⟨type.number, 1⟩).2.1
      = [((7 : Nat), (⟨type.number, 1⟩ : frame))] :=
  ⟨push_isolation.1 [⟨7, 2⟩] [⟨type.push, 0⟩, ⟨type.number, 1⟩]
      (7, ⟨type.number, 1⟩) (by decide),
   (push_isolation.2.2 ⟨7, 2⟩ [] ⟨type.number, 1⟩ (by decide) (by decide)).1⟩

/-- The error kinds that the submission paths modelled here can
surface (spec §7). -/
inductive aedis_error where
  | not_connected
  | incompatible_size
deriving DecidableEq

/-- Modelled from the spec: the synchronous head of `detail::exec_op`
(`aedis/detail/connection_ops.hpp` is not among the sources).  Spec
§4.D `submit`: "If disconnected and `cancel_if_not_connected`, fail
synchronously with `NotConnected`" — the request is then not enqueued;
otherwise the request is enqueued via the submission rule. -/
def async_exec_submit (connected reconnect_armed cancel_if_not_connected : Bool)
    (q : List pending_req) (e : pending_req) : Option aedis_error × List pending_req :=
  if cancel_if_not_connected && !connected && !reconnect_armed then
    (some aedis_error.not_connected, q)
  else
    (none, submit_req q e)

/-- C7: a request submitted with `cancel_if_not_connected` set while the
connection is disconnected (run never started, no reconnect armed)
fails immediately with `NotConnected` and is not enqueued: the queue is
exactly what it was. -/
theorem cancel_if_not_connected_spec
    (q : List pending_req) (e : pending_req) (connected armed flag : Bool)
    (hf : flag = true) (hc : connected = false) (ha : armed = false) :
    (async_exec_submit connected armed flag q e).1 = some aedis_error.not_connected ∧
    (async_exec_submit connected armed flag q e).2 = q := by
  subst hf hc ha
  exact ⟨rfl, rfl⟩

theorem cancel_if_not_connected_spec_witness :
    (async_exec_submit false false true [] c5_req1).1
      = some aedis_error.not_connected ∧
    (async_exec_submit false false true [] c5_req1).2 = [] :=
  cancel_if_not_connected_spec [] c5_req1 false false true rfl rfl rfl

/-- The possible outcomes of the synchronous part of
`connection::async_exec` (connection.hpp lines 335-346). -/
inductive exec_submit_outcome where
  | assertion_failed
  | started
  | completed_with_error (e : aedis_error)
deriving DecidableEq

/-- Embeds the size check of `connection::async_exec` (connection.hpp
lines 335-346): `BOOST_ASSERT_MSG(req.size() <=
adapter.supported_response_size(), "Request and adapter have
incompatible sizes.")`, then the composed operation is started.  A
failing assertion aborts; the code has no error-completion path for a
size mismatch. -/
def async_exec_size_check (req_size supported_response_size : Nat) : exec_submit_outcome :=
  if req_size ≤ supported_response_size then exec_submit_outcome.started
  else exec_submit_outcome.assertion_failed

/-- C2 counterexample: a request of two commands submitted against an
adapter advertising `supported_response_size = 1` trips the
`BOOST_ASSERT` in `async_exec`; the submission does not complete with
the `IncompatibleSize` error the claim states. -/
theorem async_exec_size_counterexample :
    (1 : Nat) < 2 ∧
    async_exec_size_check 2 1 = exec_submit_outcome.assertion_failed ∧
    async_exec_size_check 2 1
      ≠ exec_submit_outcome.completed_with_error aedis_error.incompatible_size := by
  decide

/-- C2 (amended): a submission whose command count exceeds the
adapter's advertised `supported_response_size` is rejected by the
`BOOST_ASSERT` in `async_exec` (an assertion failure, not an
`IncompatibleSize` error completion); a submission whose command count
is within the advertised size passes the check and is not rejected on
this ground.  No size-check outcome is an error completion. -/
theorem async_exec_size_check_spec (r s : Nat) :
    (s < r → async_exec_size_check r s = exec_submit_outcome.assertion_failed) ∧
    (r ≤ s → async_exec_size_check r s = exec_submit_outcome.started) ∧
    (∀ e, async_exec_size_check r s ≠ exec_submit_outcome.completed_with_error e) := by
  refine ⟨?_, ?_, ?_⟩
  · intro h
    simp [async_exec_size_check, Nat.not_le.mpr h]
  · intro h
    simp [async_exec_size_check, h]
  · intro e
    unfold async_exec_size_check
    split <;> simp

theorem async_exec_size_check_spec_witness :
    async_exec_size_check 2 1 = exec_submit_outcome.assertion_failed ∧
    async_exec_size_check 1 2 = exec_submit_outcome.started :=
  ⟨(async_exec_size_check_spec 2 1).1 (by decide),
   (async_exec_size_check_spec 1 2).2.1 (by decide)⟩

end Aedis
